import Mathlib

/-!
strapi-scripts: migration of local media files to object storage.

A shallow embedding of `main.go`: the directory walk, the per-file callback
(lookup by base name, upload, rewrite of the URL fields, update) and the URL
normalisation `createUrl`, followed by the properties of the specification.

Go strings are modelled as character sequences (`List Char`). Every pattern the
program searches for (`http://`, `https://`, backslash, slash) is ASCII, so the
byte-wise operations of Go and the character-wise ones below agree on UTF-8 text.
-/

namespace StrapiScripts

/-! ## Strings and paths -/

/-- Go `string`, as the sequence of its characters. -/
abbrev GoString := List Char

/-- Go `error` values other than the sentinels, identified by their message. -/
structure GoError where
  msg : GoString
  deriving DecidableEq, Repr

/-- Go `strings.HasPrefix(s, prefix)`. -/
def stringsHasPrefix (s pre : GoString) : Bool :=
  pre.isPrefixOf s

/-- Go `strings.TrimPrefix(s, prefix)`: `s` without the leading `prefix`, or `s`
itself when it does not start with `prefix`. -/
def stringsTrimPrefix (s pre : GoString) : GoString :=
  if stringsHasPrefix s pre then s.drop pre.length else s

/-- Scan of `strings.ReplaceAll` for a non-empty `old`: `skip` counts the
characters of a match just replaced that are still to be stepped over, so that
matches are replaced left to right without overlap. -/
def replaceAllScan (old new : GoString) : Nat → GoString → GoString
  | _, [] => []
  | skip + 1, _ :: cs => replaceAllScan old new skip cs
  | 0, c :: cs =>
    if old.isPrefixOf (c :: cs) then new ++ replaceAllScan old new (old.length - 1) cs
    else c :: replaceAllScan old new 0 cs

/-- Go `strings.ReplaceAll(s, old, new)`. With an empty `old`, `new` is inserted
before every character and at the end. -/
def stringsReplaceAll (s old new : GoString) : GoString :=
  if old = [] then new ++ s.flatMap (fun c => c :: new)
  else replaceAllScan old new 0 s

/-- Go `os.IsPathSeparator` on Unix. -/
def isPathSeparator (c : Char) : Bool :=
  c == '/'

/-- Loop of `filepath.Base` that strips trailing separators, on the reversed path. -/
def dropLeadingSeparators : GoString → GoString
  | [] => []
  | c :: cs => if isPathSeparator c then dropLeadingSeparators cs else c :: cs

/-- Go `filepath.Base(path)` on Unix (empty volume name): the last element of the
path; trailing separators are removed first; `.` for the empty path and `/` for a
path of separators only. -/
def filepathBase (path : GoString) : GoString :=
  if path = [] then ['.']
  else
    let stripped := (dropLeadingSeparators path.reverse).reverse
    let last := (stripped.reverse.takeWhile (fun c => !isPathSeparator c)).reverse
    if last = [] then ['/'] else last

/-! ## Configuration and data model -/

/-- Go `float64`, carried as its IEEE-754 bit pattern; the program never computes
with it. -/
abbrev Float64 := Nat

/-- The struct `Format`. -/
structure Format where
  URL : GoString
  Ext : GoString
  Hash : GoString
  Mime : GoString
  Name : GoString
  Path : GoString
  Size : Float64
  Width : Int
  Height : Int
  deriving DecidableEq, Repr

/-- The struct `FileFormats`. -/
structure FileFormats where
  URL : GoString
  Large : Format
  Small : Format
  Medium : Format
  Thumbnail : Format
  deriving DecidableEq, Repr

/-- Zero value of `Format`. -/
def Format.zero : Format :=
  { URL := [], Ext := [], Hash := [], Mime := [], Name := [], Path := [],
    Size := 0, Width := 0, Height := 0 }

/-- Zero value of `FileFormats`, as declared by `var existingFormatsData FileFormats`. -/
def FileFormats.zero : FileFormats :=
  { URL := [], Large := Format.zero, Small := Format.zero, Medium := Format.zero,
    Thumbnail := Format.zero }

/-- The flag values read by `main`, with the two functions of `encoding/json` the
program calls on `FileFormats`. `jsonUnmarshal text` is the struct left in
`existingFormatsData` (filled from its zero value) and the error returned;
`jsonMarshal v` is the byte slice returned (empty on error) and the error. -/
structure Config where
  minioEndpoint : GoString
  minioBucket : GoString
  folderPath : GoString
  jsonUnmarshal : GoString → FileFormats × Option GoError
  jsonMarshal : FileFormats → GoString × Option GoError

/-- The closure `createUrl` of `main`. -/
def createUrl (cfg : Config) (path : GoString) : GoString :=
  if stringsHasPrefix path "http://".toList || stringsHasPrefix path "https://".toList then
    path
  else
    let path := stringsTrimPrefix (stringsReplaceAll path "\\".toList "/".toList) "/".toList
    "https://".toList ++ cfg.minioEndpoint ++ "/".toList ++ cfg.minioBucket ++ "/".toList ++ path

/-- The five assignments of `main` that follow `json.Unmarshal`: the outer URL is
set from the object name, each variant URL from its own previous value. -/
def rewriteFormats (cfg : Config) (objectName : GoString) (d : FileFormats) : FileFormats :=
  let d := { d with URL := createUrl cfg objectName }
  let d := { d with Large := { d.Large with URL := createUrl cfg d.Large.URL } }
  let d := { d with Small := { d.Small with URL := createUrl cfg d.Small.URL } }
  let d := { d with Medium := { d.Medium with URL := createUrl cfg d.Medium.URL } }
  { d with Thumbnail := { d.Thumbnail with URL := createUrl cfg d.Thumbnail.URL } }

/-! ## The database -/

/-- A row of `public.files`, restricted to the columns the program names. The
columns `url` and `formats` may hold SQL `NULL` (`none`). -/
structure FileRow where
  name : GoString
  url : Option GoString
  formats : Option GoString
  deriving DecidableEq, Repr

/-- The table `public.files`. -/
abbrev DB := List FileRow

/-- Errors of `QueryRow(...).Scan`: the sentinel `sql.ErrNoRows`, or any other. -/
inductive SqlError where
  | errNoRows
  | other (e : GoError)
  deriving DecidableEq, Repr

/-- Error of `Scan` when a `NULL` column is read into a `*string`. -/
def scanNullError : GoError :=
  ⟨"converting NULL to string is unsupported".toList⟩

/-- The call `pgDB.QueryRow("SELECT url, formats FROM public.files WHERE name = $1",
filename).Scan(&existingURL, &existingFormats)`: the values of `existingURL` and
`existingFormats` afterwards (both start empty) and the error. `fault` is a failure
of the connection or of the query itself. The first matching row is scanned,
column after column. -/
def queryRowScan (db : DB) (fault : Option GoError) (filename : GoString) :
    GoString × GoString × Option SqlError :=
  match fault with
  | some e => ([], [], some (SqlError.other e))
  | none =>
    match db.find? (fun r => r.name = filename) with
    | none => ([], [], some SqlError.errNoRows)
    | some r =>
      match r.url with
      | none => ([], [], some (SqlError.other scanNullError))
      | some u =>
        match r.formats with
        | none => (u, [], some (SqlError.other scanNullError))
        | some f => (u, f, none)

/-- The call `updateStmt.Exec(url, formats, name)` for the prepared statement
`UPDATE public.files SET url = $1, formats = $2 WHERE name = $3`: the table
afterwards and the error. A failed statement changes nothing. -/
def updateExec (db : DB) (fault : Option GoError) (url formats name : GoString) :
    DB × Option GoError :=
  match fault with
  | some e => (db, some e)
  | none =>
    (db.map (fun r => if r.name = name then { r with url := some url, formats := some formats }
      else r), none)

/-! ## Effects and the walk -/

/-- The calls to the external services and the lines written, in program order. -/
inductive Event where
  | logAccessError (filePath : GoString) (e : GoError)
  | query (filename : GoString)
  | logQueryError (e : SqlError)
  | putObject (bucket objectName filePath : GoString)
  | logUploadError (filePath : GoString) (e : GoError)
  | printUploaded (filePath bucket : GoString)
  | logParseError (e : GoError)
  | logMarshalError (e : GoError)
  | update (url formats name : GoString)
  | logUpdateError (e : GoError)
  | printUpdated (filename : GoString)
  | logDoesNotExist (filename : GoString)
  | fatal (e : GoError)
  deriving DecidableEq, Repr

/-- One invocation of the walk callback by `filepath.Walk`: the arguments
`filePath`, `info.IsDir()` and `err`, and the outcome of each external call the
callback may make during this invocation (`none`: the call succeeds). -/
structure Visit where
  filePath : GoString
  isDir : Bool
  walkErr : Option GoError
  queryFault : Option GoError
  uploadFault : Option GoError
  updateFault : Option GoError
  deriving DecidableEq, Repr

/-- State after a piece of the run: the table, the effects so far, and the error
returned (`none` for `nil`). -/
structure Outcome where
  db : DB
  events : List Event
  err : Option GoError
  deriving DecidableEq, Repr

/-- Line written when an optional error is not `nil`. -/
def logIf (mk : GoError → Event) : Option GoError → List Event
  | none => []
  | some e => [mk e]

/-- The function literal passed to `filepath.Walk` in `main`. -/
def walkFn (cfg : Config) (db : DB) (v : Visit) : Outcome :=
  match v.walkErr with
  | some e => { db := db, events := [Event.logAccessError v.filePath e], err := some e }
  | none =>
    if v.isDir then { db := db, events := [], err := none }
    else
      let objectName := stringsTrimPrefix v.filePath cfg.folderPath
      let filename := filepathBase v.filePath
      match queryRowScan db v.queryFault filename with
      | (_, _, some (SqlError.other e)) =>
        { db := db, events := [Event.query filename, Event.logQueryError (SqlError.other e)],
          err := none }
      | (existingURL, existingFormats, _) =>
        if existingURL ≠ [] then
          match v.uploadFault with
          | some e =>
            { db := db,
              events := [Event.query filename,
                Event.putObject cfg.minioBucket objectName v.filePath,
                Event.logUploadError v.filePath e],
              err := some e }
          | none =>
            let parsed := cfg.jsonUnmarshal existingFormats
            let existingFormatsData := rewriteFormats cfg objectName parsed.1
            let updatedFormats := cfg.jsonMarshal existingFormatsData
            let existingFormatsString := updatedFormats.1
            let updated := updateExec db v.updateFault existingFormatsData.URL
              existingFormatsString filename
            { db := updated.1,
              events := [Event.query filename,
                  Event.putObject cfg.minioBucket objectName v.filePath,
                  Event.printUploaded v.filePath cfg.minioBucket]
                ++ logIf Event.logParseError parsed.2
                ++ logIf Event.logMarshalError updatedFormats.2
                ++ [Event.update existingFormatsData.URL existingFormatsString filename]
                ++ logIf Event.logUpdateError updated.2
                ++ [Event.printUpdated filename],
              err := none }
        else
          { db := db, events := [Event.query filename, Event.logDoesNotExist filename],
            err := none }

/-- Go `filepath.Walk(root, fn)` over the entries of the tree in traversal order:
`fn` is called on each in turn and the walk ends with the first error `fn`
returns. (The callback of `main` returns only errors it received from the walker
or from the upload, never `filepath.SkipDir` or `filepath.SkipAll`.) -/
def walk (cfg : Config) : DB → List Visit → Outcome
  | db, [] => { db := db, events := [], err := none }
  | db, v :: vs =>
    let r := walkFn cfg db v
    match r.err with
    | some e => { db := r.db, events := r.events, err := some e }
    | none =>
      let rest := walk cfg r.db vs
      { db := rest.db, events := r.events ++ rest.events, err := rest.err }

/-- Failures of the three set-up calls of `main`: `minio.New`, `sql.Open` and
`pgDB.Prepare`. -/
structure Startup where
  minioNew : Option GoError
  sqlOpen : Option GoError
  prepare : Option GoError
  deriving DecidableEq, Repr

/-- Result of a run of `main`: the table and the effects, and the exit status
(`1` after `log.Fatalln`, `0` otherwise). -/
structure RunResult where
  db : DB
  events : List Event
  exitCode : Nat
  deriving DecidableEq, Repr

/-- The function `main`, after flag parsing. -/
def main (cfg : Config) (st : Startup) (db : DB) (visits : List Visit) : RunResult :=
  match st.minioNew with
  | some e => { db := db, events := [Event.fatal e], exitCode := 1 }
  | none =>
    match st.sqlOpen with
    | some e => { db := db, events := [Event.fatal e], exitCode := 1 }
    | none =>
      match st.prepare with
      | some e => { db := db, events := [Event.fatal e], exitCode := 1 }
      | none =>
        let r := walk cfg db visits
        match r.err with
        | some e => { db := r.db, events := r.events ++ [Event.fatal e], exitCode := 1 }
        | none => { db := r.db, events := r.events, exitCode := 0 }

/-! ## Readings of the specification and of the effects -/

/-- Number of update statements executed with the given name. -/
def countUpdates (name : GoString) : List Event → Nat
  | [] => 0
  | Event.update _ _ n :: es => (if n = name then 1 else 0) + countUpdates name es
  | _ :: es => countUpdates name es

/-- Whether an effect is an upload call or an update statement. -/
def Event.isWrite : Event → Bool
  | Event.putObject _ _ _ => true
  | Event.update _ _ _ => true
  | _ => false

/-- Whether an effect is an update statement. -/
def Event.isUpdate : Event → Bool
  | Event.update _ _ _ => true
  | _ => false

/-- Whether the callback is invoked on a regular file it could access. -/
def Visit.isFile (v : Visit) : Bool :=
  v.walkErr.isNone && !v.isDir

/-- Specification wording "already prefixed `http://` or `https://`". -/
def specIsAbsolute (path : GoString) : Bool :=
  "http://".toList.isPrefixOf path || "https://".toList.isPrefixOf path

/-- Specification wording "replace backslashes with forward slashes". -/
def specBackslashesToSlashes (path : GoString) : GoString :=
  path.map (fun c => if c = '\\' then '/' else c)

/-- Specification wording "strip a single leading `/`". -/
def specStripLeadingSlash : GoString → GoString
  | '/' :: cs => cs
  | cs => cs

/-- Specification wording "rooted at the configured storage endpoint and bucket":
the prefix `https://{endpoint}/{bucket}/`. -/
def specBucketRoot (cfg : Config) : GoString :=
  "https://".toList ++ cfg.minioEndpoint ++ "/".toList ++ cfg.minioBucket ++ "/".toList

/-- Relation between a URL field after the rewrite and the value it was computed
from: an absolute value is kept, any other is rooted at the bucket. -/
def RewrittenFrom (cfg : Config) (source field : GoString) : Prop :=
  (specIsAbsolute source = true ∧ field = source) ∨
  (specIsAbsolute source = false ∧ specBucketRoot cfg <+: field)

instance (cfg : Config) (source field : GoString) : Decidable (RewrittenFrom cfg source field) := by
  unfold RewrittenFrom
  infer_instance

/-! ## Sample data -/

/-- A configuration with root `dir`. Its parser accepts the text `null` only
(leaving the zero value) and fails on every other text, also leaving the zero
value; its serialiser writes the outer URL only. -/
def sampleConfig : Config :=
  { minioEndpoint := "minio.example.com:9000".toList, minioBucket := "media".toList,
    folderPath := "dir".toList,
    jsonUnmarshal := fun t =>
      if t = "null".toList then (FileFormats.zero, none)
      else (FileFormats.zero, some ⟨"invalid character".toList⟩),
    jsonMarshal := fun d => (d.URL, none) }

/-- A table with one record, named `b.jpg`, whose url is not empty. -/
def sampleDb : DB :=
  [{ name := "b.jpg".toList, url := some "/uploads/b.jpg".toList,
     formats := some "not json".toList }]

/-- A visit of a regular file during which every external call succeeds. -/
def fileVisit (filePath : GoString) : Visit :=
  { filePath := filePath, isDir := false, walkErr := none, queryFault := none,
    uploadFault := none, updateFault := none }

/-- A visit of a regular file during which the upload fails. -/
def failedUploadVisit (filePath : GoString) : Visit :=
  { fileVisit filePath with uploadFault := some ⟨"connection refused".toList⟩ }

/-- A visit of a directory the walker could read. -/
def dirVisit (filePath : GoString) : Visit :=
  { fileVisit filePath with isDir := true }

/-- A start of `main` in which the three set-up calls succeed. -/
def startupOk : Startup :=
  { minioNew := none, sqlOpen := none, prepare := none }

/-- A parsed value whose large variant already holds an absolute URL of another host. -/
def sampleFormats : FileFormats :=
  { FileFormats.zero with
    Large := { Format.zero with URL := "http://cdn.example.org/large_b.jpg".toList },
    Small := { Format.zero with URL := "/uploads/small_b.jpg".toList } }


/-! ## Lemmas on the string functions -/

theorem stringsHasPrefix_iff (s pre : GoString) : stringsHasPrefix s pre = true ↔ pre <+: s := by
  unfold stringsHasPrefix
  exact List.isPrefixOf_iff_prefix

theorem stringsHasPrefix_append (pre s : GoString) : stringsHasPrefix (pre ++ s) pre = true :=
  (stringsHasPrefix_iff _ _).2 (List.prefix_append pre s)

theorem replaceAllScan_single (a b : Char) (s : GoString) :
    replaceAllScan [a] [b] 0 s = s.map (fun c => if c = a then b else c) := by
  induction s with
  | nil => rfl
  | cons c cs ih =>
    by_cases h : c = a
    · subst h
      simp [replaceAllScan, ih]
    · have h2 : ¬ a = c := fun e => h e.symm
      simp [replaceAllScan, ih, h, h2]

theorem stringsReplaceAll_backslash (s : GoString) :
    stringsReplaceAll s "\\".toList "/".toList = specBackslashesToSlashes s := by
  have h : stringsReplaceAll s "\\".toList "/".toList = replaceAllScan ['\\'] ['/'] 0 s := by
    simp [stringsReplaceAll]
  rw [h, replaceAllScan_single]
  rfl

theorem stringsTrimPrefix_slash (s : GoString) :
    stringsTrimPrefix s "/".toList = specStripLeadingSlash s := by
  cases s with
  | nil => rfl
  | cons c cs =>
    by_cases h : c = '/'
    · subst h
      simp [stringsTrimPrefix, stringsHasPrefix, specStripLeadingSlash]
    · have h2 : ¬ '/' = c := fun e => h e.symm
      have h3 : specStripLeadingSlash (c :: cs) = c :: cs := by
        unfold specStripLeadingSlash
        split
        · rename_i heq
          cases heq
          exact absurd rfl h
        · rfl
      rw [h3]
      simp [stringsTrimPrefix, stringsHasPrefix, h2]

theorem createUrl_of_absolute (cfg : Config) (path : GoString)
    (h : "http://".toList <+: path ∨ "https://".toList <+: path) : createUrl cfg path = path := by
  unfold createUrl
  have h2 : (stringsHasPrefix path "http://".toList || stringsHasPrefix path "https://".toList)
      = true := by
    rcases h with h | h
    · rw [(stringsHasPrefix_iff _ _).2 h, Bool.true_or]
    · rw [(stringsHasPrefix_iff _ _).2 h, Bool.or_true]
  rw [if_pos h2]

theorem createUrl_of_local (cfg : Config) (path : GoString)
    (h1 : ¬ "http://".toList <+: path) (h2 : ¬ "https://".toList <+: path) :
    createUrl cfg path
      = specBucketRoot cfg ++ specStripLeadingSlash (specBackslashesToSlashes path) := by
  unfold createUrl
  have e1 : stringsHasPrefix path "http://".toList = false := by
    rw [Bool.eq_false_iff]
    exact fun h => h1 ((stringsHasPrefix_iff _ _).1 h)
  have e2 : stringsHasPrefix path "https://".toList = false := by
    rw [Bool.eq_false_iff]
    exact fun h => h2 ((stringsHasPrefix_iff _ _).1 h)
  rw [e1, e2]
  simp only [Bool.or_self, Bool.false_eq_true, if_false]
  rw [stringsReplaceAll_backslash, stringsTrimPrefix_slash]
  rfl

theorem specIsAbsolute_iff (path : GoString) :
    specIsAbsolute path = true ↔ ("http://".toList <+: path ∨ "https://".toList <+: path) := by
  unfold specIsAbsolute
  rw [Bool.or_eq_true, List.isPrefixOf_iff_prefix, List.isPrefixOf_iff_prefix]

theorem createUrl_cases (cfg : Config) (path : GoString) :
    (specIsAbsolute path = true ∧ createUrl cfg path = path) ∨
    (specIsAbsolute path = false ∧ createUrl cfg path
      = specBucketRoot cfg ++ specStripLeadingSlash (specBackslashesToSlashes path)) := by
  by_cases h : specIsAbsolute path = true
  · exact Or.inl ⟨h, createUrl_of_absolute cfg path ((specIsAbsolute_iff path).1 h)⟩
  · refine Or.inr ⟨by simpa using h, ?_⟩
    have h3 := mt (specIsAbsolute_iff path).2 h
    push_neg at h3
    exact createUrl_of_local cfg path h3.1 h3.2

/-! ## Lemmas on the callback and the walk -/

theorem queryRowScan_errNoRows (db : DB) (fault : Option GoError) (filename : GoString)
    (h : (queryRowScan db fault filename).2.2 = some SqlError.errNoRows) :
    (queryRowScan db fault filename).1 = [] := by
  unfold queryRowScan at h ⊢
  cases fault with
  | some e => rfl
  | none =>
    cases hfind : db.find? (fun r => r.name = filename) with
    | none => simp
    | some r =>
      cases hurl : r.url with
      | none => simp [hurl]
      | some u =>
        cases hfmt : r.formats with
        | none => simp [hfind, hurl, hfmt] at h
        | some f => simp [hfind, hurl, hfmt] at h

/-- The callback on a file whose record was found with a non-empty url, when the
upload succeeds. -/
theorem walkFn_uploaded (cfg : Config) (db : DB) (v : Visit) (u f : GoString)
    (hErr : v.walkErr = none) (hDir : v.isDir = false)
    (hq : queryRowScan db v.queryFault (filepathBase v.filePath) = (u, f, none))
    (hu : u ≠ []) (hUp : v.uploadFault = none) :
    walkFn cfg db v =
      { db := (updateExec db v.updateFault
          (rewriteFormats cfg (stringsTrimPrefix v.filePath cfg.folderPath)
            (cfg.jsonUnmarshal f).1).URL
          (cfg.jsonMarshal (rewriteFormats cfg (stringsTrimPrefix v.filePath cfg.folderPath)
            (cfg.jsonUnmarshal f).1)).1
          (filepathBase v.filePath)).1,
        events := [Event.query (filepathBase v.filePath),
            Event.putObject cfg.minioBucket (stringsTrimPrefix v.filePath cfg.folderPath)
              v.filePath,
            Event.printUploaded v.filePath cfg.minioBucket]
          ++ logIf Event.logParseError (cfg.jsonUnmarshal f).2
          ++ logIf Event.logMarshalError (cfg.jsonMarshal (rewriteFormats cfg
              (stringsTrimPrefix v.filePath cfg.folderPath) (cfg.jsonUnmarshal f).1)).2
          ++ [Event.update
              (rewriteFormats cfg (stringsTrimPrefix v.filePath cfg.folderPath)
                (cfg.jsonUnmarshal f).1).URL
              (cfg.jsonMarshal (rewriteFormats cfg (stringsTrimPrefix v.filePath cfg.folderPath)
                (cfg.jsonUnmarshal f).1)).1
              (filepathBase v.filePath)]
          ++ logIf Event.logUpdateError (updateExec db v.updateFault
              (rewriteFormats cfg (stringsTrimPrefix v.filePath cfg.folderPath)
                (cfg.jsonUnmarshal f).1).URL
              (cfg.jsonMarshal (rewriteFormats cfg (stringsTrimPrefix v.filePath cfg.folderPath)
                (cfg.jsonUnmarshal f).1)).1
              (filepathBase v.filePath)).2
          ++ [Event.printUpdated (filepathBase v.filePath)],
        err := none } := by
  unfold walkFn
  simp only [hErr, hDir, hq, hUp]
  simp [hu]

/-- The callback on a file whose record was found with a non-empty url, when the
upload fails. -/
theorem walkFn_uploadFailed (cfg : Config) (db : DB) (v : Visit) (u f : GoString) (e : GoError)
    (hErr : v.walkErr = none) (hDir : v.isDir = false)
    (hq : queryRowScan db v.queryFault (filepathBase v.filePath) = (u, f, none))
    (hu : u ≠ []) (hUp : v.uploadFault = some e) :
    walkFn cfg db v =
      { db := db,
        events := [Event.query (filepathBase v.filePath),
          Event.putObject cfg.minioBucket (stringsTrimPrefix v.filePath cfg.folderPath)
            v.filePath,
          Event.logUploadError v.filePath e],
        err := some e } := by
  unfold walkFn
  simp only [hErr, hDir, hq, hUp]
  simp [hu]

/-- The callback on a file whose lookup failed with an error other than
`sql.ErrNoRows`. -/
theorem walkFn_queryFailed (cfg : Config) (db : DB) (v : Visit) (u f : GoString) (e : GoError)
    (hErr : v.walkErr = none) (hDir : v.isDir = false)
    (hq : queryRowScan db v.queryFault (filepathBase v.filePath)
      = (u, f, some (SqlError.other e))) :
    walkFn cfg db v =
      { db := db,
        events := [Event.query (filepathBase v.filePath),
          Event.logQueryError (SqlError.other e)],
        err := none } := by
  unfold walkFn
  simp only [hErr, hDir, hq]
  simp

/-- The callback on a file for which the lookup left `existingURL` empty without
an error other than `sql.ErrNoRows`. -/
theorem walkFn_notExist (cfg : Config) (db : DB) (v : Visit) (f : GoString)
    (r : Option SqlError) (hr : r = none ∨ r = some SqlError.errNoRows)
    (hErr : v.walkErr = none) (hDir : v.isDir = false)
    (hq : queryRowScan db v.queryFault (filepathBase v.filePath) = ([], f, r)) :
    walkFn cfg db v =
      { db := db,
        events := [Event.query (filepathBase v.filePath),
          Event.logDoesNotExist (filepathBase v.filePath)],
        err := none } := by
  unfold walkFn
  simp only [hErr, hDir, hq]
  rcases hr with hr | hr <;> subst hr <;> simp

theorem walk_cons_continue (cfg : Config) (db : DB) (v : Visit) (vs : List Visit)
    (h : (walkFn cfg db v).err = none) :
    walk cfg db (v :: vs) =
      { db := (walk cfg (walkFn cfg db v).db vs).db,
        events := (walkFn cfg db v).events ++ (walk cfg (walkFn cfg db v).db vs).events,
        err := (walk cfg (walkFn cfg db v).db vs).err } := by
  simp [walk, h]

theorem walk_cons_stop (cfg : Config) (db : DB) (v : Visit) (vs : List Visit) (e : GoError)
    (h : (walkFn cfg db v).err = some e) :
    walk cfg db (v :: vs) =
      { db := (walkFn cfg db v).db, events := (walkFn cfg db v).events, err := some e } := by
  simp [walk, h]

/-- A walk whose first part ends without error goes on with the rest, from the
table the first part left. -/
theorem walk_append (cfg : Config) (pre vs : List Visit) (db : DB)
    (h : (walk cfg db pre).err = none) :
    walk cfg db (pre ++ vs) =
      { db := (walk cfg (walk cfg db pre).db vs).db,
        events := (walk cfg db pre).events ++ (walk cfg (walk cfg db pre).db vs).events,
        err := (walk cfg (walk cfg db pre).db vs).err } := by
  induction pre generalizing db with
  | nil => simp [walk]
  | cons p ps ih =>
    cases hE : (walkFn cfg db p).err with
    | some e =>
      rw [walk_cons_stop cfg db p ps e hE] at h
      cases h
    | none =>
      rw [walk_cons_continue cfg db p ps hE] at h
      have ih2 := ih (walkFn cfg db p).db h
      rw [List.cons_append, walk_cons_continue cfg db p (ps ++ vs) hE, ih2,
        walk_cons_continue cfg db p ps hE]
      simp [List.append_assoc]

theorem main_of_walk_err (cfg : Config) (db : DB) (vs : List Visit) (e : GoError)
    (h : (walk cfg db vs).err = some e) :
    main cfg startupOk db vs =
      { db := (walk cfg db vs).db, events := (walk cfg db vs).events ++ [Event.fatal e],
        exitCode := 1 } := by
  simp [main, startupOk, h]

theorem main_of_walk_ok (cfg : Config) (db : DB) (vs : List Visit)
    (h : (walk cfg db vs).err = none) :
    main cfg startupOk db vs =
      { db := (walk cfg db vs).db, events := (walk cfg db vs).events, exitCode := 0 } := by
  simp [main, startupOk, h]

theorem main_exitCode_congr (cfg : Config) (db1 db2 : DB) (vs1 vs2 : List Visit)
    (h : (walk cfg db1 vs1).err = (walk cfg db2 vs2).err) :
    (main cfg startupOk db1 vs1).exitCode = (main cfg startupOk db2 vs2).exitCode := by
  cases h2 : (walk cfg db2 vs2).err with
  | some e =>
    rw [main_of_walk_err cfg db1 vs1 e (h.trans h2), main_of_walk_err cfg db2 vs2 e h2]
  | none =>
    rw [main_of_walk_ok cfg db1 vs1 (h.trans h2), main_of_walk_ok cfg db2 vs2 h2]

theorem createUrl_nil (cfg : Config) : createUrl cfg [] = specBucketRoot cfg := by
  rw [createUrl_of_local cfg [] (by decide) (by decide)]
  simp [specBackslashesToSlashes, specStripLeadingSlash]

theorem countUpdates_append (name : GoString) (xs ys : List Event) :
    countUpdates name (xs ++ ys) = countUpdates name xs + countUpdates name ys := by
  induction xs with
  | nil => simp [countUpdates]
  | cons x xs ih =>
    cases x <;> simp [countUpdates, ih, Nat.add_assoc]


theorem countUpdates_logIf_parse (name : GoString) (o : Option GoError) :
    countUpdates name (logIf Event.logParseError o) = 0 := by
  cases o <;> simp [logIf, countUpdates]

theorem countUpdates_logIf_marshal (name : GoString) (o : Option GoError) :
    countUpdates name (logIf Event.logMarshalError o) = 0 := by
  cases o <;> simp [logIf, countUpdates]

theorem countUpdates_logIf_update (name : GoString) (o : Option GoError) :
    countUpdates name (logIf Event.logUpdateError o) = 0 := by
  cases o <;> simp [logIf, countUpdates]

/-- One invocation of the callback executes at most one update statement, and
only for a regular file, under the base name of that file. -/
theorem countUpdates_walkFn_le (cfg : Config) (db : DB) (v : Visit) (name : GoString) :
    countUpdates name (walkFn cfg db v).events
      ≤ if (v.isFile && decide (filepathBase v.filePath = name)) = true then 1 else 0 := by
  cases hErr : v.walkErr with
  | some e => simp [walkFn, hErr, countUpdates]
  | none =>
    cases hDir : v.isDir with
    | true => simp [walkFn, hErr, hDir, countUpdates]
    | false =>
      rcases hq : queryRowScan db v.queryFault (filepathBase v.filePath) with ⟨u, f, r⟩
      have hfile : v.isFile = true := by simp [Visit.isFile, hErr, hDir]
      cases r with
      | some r =>
        cases r with
        | other e =>
          rw [walkFn_queryFailed cfg db v u f e hErr hDir hq]
          simp [countUpdates]
        | errNoRows =>
          have hu : u = [] := by
            have := queryRowScan_errNoRows db v.queryFault (filepathBase v.filePath)
              (by rw [hq])
            rw [hq] at this
            exact this
          subst hu
          rw [walkFn_notExist cfg db v f _ (Or.inr rfl) hErr hDir hq]
          simp [countUpdates]
      | none =>
        by_cases hu : u = []
        · subst hu
          rw [walkFn_notExist cfg db v f _ (Or.inl rfl) hErr hDir hq]
          simp [countUpdates]
        · cases hUp : v.uploadFault with
          | some e =>
            rw [walkFn_uploadFailed cfg db v u f e hErr hDir hq hu hUp]
            simp [countUpdates]
          | none =>
            rw [walkFn_uploaded cfg db v u f hErr hDir hq hu hUp]
            by_cases hn : filepathBase v.filePath = name <;>
              simp [countUpdates_append, countUpdates_logIf_parse,
                countUpdates_logIf_marshal, countUpdates_logIf_update, countUpdates, hfile, hn]

theorem countUpdates_walk_le (cfg : Config) (name : GoString) (visits : List Visit) (db : DB) :
    countUpdates name (walk cfg db visits).events
      ≤ (visits.filter (fun v => v.isFile && decide (filepathBase v.filePath = name))).length := by
  induction visits generalizing db with
  | nil => simp [walk, countUpdates]
  | cons v vs ih =>
    have h1 := countUpdates_walkFn_le cfg db v name
    have h2 := ih (walkFn cfg db v).db
    have hlen : (List.filter (fun v => v.isFile && decide (filepathBase v.filePath = name))
        (v :: vs)).length
        = (if (v.isFile && decide (filepathBase v.filePath = name)) = true then 1 else 0)
          + (List.filter (fun v => v.isFile && decide (filepathBase v.filePath = name))
            vs).length := by
      rw [List.filter_cons]
      split <;> simp [Nat.add_comm]
    rw [hlen]
    cases hE : (walkFn cfg db v).err with
    | some e =>
      rw [walk_cons_stop cfg db v vs e hE]
      exact Nat.le_trans h1 (Nat.le_add_right _ _)
    | none =>
      rw [walk_cons_continue cfg db v vs hE]
      simp only [countUpdates_append]
      exact Nat.add_le_add h1 h2

theorem countUpdates_main_le (cfg : Config) (st : Startup) (name : GoString)
    (visits : List Visit) (db : DB) :
    countUpdates name (main cfg st db visits).events
      ≤ (visits.filter (fun v => v.isFile && decide (filepathBase v.filePath = name))).length := by
  have h := countUpdates_walk_le cfg name visits db
  unfold main
  cases st.minioNew with
  | some e => simp [countUpdates]
  | none =>
    cases st.sqlOpen with
    | some e => simp [countUpdates]
    | none =>
      cases st.prepare with
      | some e => simp [countUpdates]
      | none =>
        cases hE : (walk cfg db visits).err with
        | some e => simpa [hE, countUpdates_append, countUpdates] using h
        | none => simpa [hE] using h

theorem createUrl_idem (cfg : Config) (path : GoString) :
    createUrl cfg (createUrl cfg path) = createUrl cfg path := by
  rcases createUrl_cases cfg path with ⟨_, h⟩ | ⟨_, h⟩
  · rw [h, h]
  · apply createUrl_of_absolute
    right
    rw [h]
    unfold specBucketRoot
    simp only [List.append_assoc]
    exact List.prefix_append _ _


/-! ## Properties of the specification -/

/-- C1: for a path that starts with neither `http://` nor `https://`, `createUrl`
returns exactly `https://` ++ endpoint ++ `/` ++ bucket ++ `/` ++ p, where p is the
path with every backslash replaced by a forward slash and then a single leading
`/` removed. -/
theorem createUrl_local_exact (cfg : Config) (path : GoString)
    (h1 : ¬ "http://".toList <+: path) (h2 : ¬ "https://".toList <+: path) :
    createUrl cfg path
      = "https://".toList ++ cfg.minioEndpoint ++ "/".toList ++ cfg.minioBucket ++ "/".toList
        ++ specStripLeadingSlash (specBackslashesToSlashes path) := by
  rw [createUrl_of_local cfg path h1 h2]
  rfl

theorem createUrl_local_exact_witness :
    (¬ "http://".toList <+: "/uploads\\small_b.jpg".toList)
    ∧ (¬ "https://".toList <+: "/uploads\\small_b.jpg".toList)
    ∧ createUrl sampleConfig "/uploads\\small_b.jpg".toList
      = "https://".toList ++ sampleConfig.minioEndpoint ++ "/".toList
        ++ sampleConfig.minioBucket ++ "/".toList
        ++ specStripLeadingSlash (specBackslashesToSlashes "/uploads\\small_b.jpg".toList) :=
  ⟨by decide, by decide,
    createUrl_local_exact sampleConfig "/uploads\\small_b.jpg".toList (by decide) (by decide)⟩

/-- C2 (as stated, refuted): in a run over two files where the upload of the first
fails, the callback returns the error to the walker, the second file is never
looked up, and the run ends with exit status 1. -/
theorem upload_failure_continues_counterexample :
    (walkFn sampleConfig sampleDb (failedUploadVisit "dir/a/b.jpg".toList)).err ≠ none
    ∧ Event.query "c.jpg".toList ∉
      (main sampleConfig startupOk sampleDb
        [failedUploadVisit "dir/a/b.jpg".toList, fileVisit "dir/a/c.jpg".toList]).events
    ∧ (main sampleConfig startupOk sampleDb
        [failedUploadVisit "dir/a/b.jpg".toList, fileVisit "dir/a/c.jpg".toList]).exitCode = 1 := by
  decide

/-- C2 (amended): wherever in the traversal the file stands, when a record with
non-empty url was found and the upload fails with error `e`, the callback stops
without an update statement, leaves the table unchanged and returns `e` to the
walker; the walk ends at that file, so no file after it is looked up or
processed, and `main` ends fatally with exit status 1. -/
theorem upload_failure_stops_walk (cfg : Config) (db : DB) (pre : List Visit) (v : Visit)
    (rest : List Visit) (u f : GoString) (e : GoError)
    (hPre : (walk cfg db pre).err = none)
    (hErr : v.walkErr = none) (hDir : v.isDir = false)
    (hq : queryRowScan (walk cfg db pre).db v.queryFault (filepathBase v.filePath)
      = (u, f, none))
    (hu : u ≠ []) (hUp : v.uploadFault = some e) :
    walkFn cfg (walk cfg db pre).db v =
      { db := (walk cfg db pre).db,
        events := [Event.query (filepathBase v.filePath),
          Event.putObject cfg.minioBucket (stringsTrimPrefix v.filePath cfg.folderPath)
            v.filePath,
          Event.logUploadError v.filePath e],
        err := some e }
    ∧ walk cfg db (pre ++ v :: rest) =
      { db := (walk cfg db pre).db,
        events := (walk cfg db pre).events ++
          [Event.query (filepathBase v.filePath),
            Event.putObject cfg.minioBucket (stringsTrimPrefix v.filePath cfg.folderPath)
              v.filePath,
            Event.logUploadError v.filePath e],
        err := some e }
    ∧ main cfg startupOk db (pre ++ v :: rest) =
      { db := (walk cfg db pre).db,
        events := (walk cfg db pre).events ++
          [Event.query (filepathBase v.filePath),
            Event.putObject cfg.minioBucket (stringsTrimPrefix v.filePath cfg.folderPath)
              v.filePath,
            Event.logUploadError v.filePath e,
            Event.fatal e],
        exitCode := 1 } := by
  have h := walkFn_uploadFailed cfg (walk cfg db pre).db v u f e hErr hDir hq hu hUp
  have hs : walk cfg (walk cfg db pre).db (v :: rest) = walkFn cfg (walk cfg db pre).db v := by
    rw [walk_cons_stop cfg _ v rest e (by rw [h]), h]
  have hw : walk cfg db (pre ++ v :: rest) =
      { db := (walk cfg db pre).db,
        events := (walk cfg db pre).events ++
          [Event.query (filepathBase v.filePath),
            Event.putObject cfg.minioBucket (stringsTrimPrefix v.filePath cfg.folderPath)
              v.filePath,
            Event.logUploadError v.filePath e],
        err := some e } := by
    rw [walk_append cfg pre (v :: rest) db hPre, hs, h]
  refine ⟨h, hw, ?_⟩
  rw [main_of_walk_err cfg db (pre ++ v :: rest) e (by rw [hw]), hw]
  simp

theorem upload_failure_stops_walk_witness :
    (walk sampleConfig sampleDb [dirVisit "dir".toList, dirVisit "dir/a".toList]).err = none
    ∧ (failedUploadVisit "dir/a/b.jpg".toList).walkErr = none
    ∧ (failedUploadVisit "dir/a/b.jpg".toList).isDir = false
    ∧ queryRowScan
        (walk sampleConfig sampleDb [dirVisit "dir".toList, dirVisit "dir/a".toList]).db
        (failedUploadVisit "dir/a/b.jpg".toList).queryFault
        (filepathBase (failedUploadVisit "dir/a/b.jpg".toList).filePath)
      = ("/uploads/b.jpg".toList, "not json".toList, none)
    ∧ (failedUploadVisit "dir/a/b.jpg".toList).uploadFault
      = some ⟨"connection refused".toList⟩
    ∧ main sampleConfig startupOk sampleDb
        ([dirVisit "dir".toList, dirVisit "dir/a".toList]
          ++ failedUploadVisit "dir/a/b.jpg".toList :: [fileVisit "dir/a/c.jpg".toList])
      = { db := (walk sampleConfig sampleDb
            [dirVisit "dir".toList, dirVisit "dir/a".toList]).db,
          events := (walk sampleConfig sampleDb
              [dirVisit "dir".toList, dirVisit "dir/a".toList]).events ++
            [Event.query (filepathBase (failedUploadVisit "dir/a/b.jpg".toList).filePath),
              Event.putObject sampleConfig.minioBucket
                (stringsTrimPrefix (failedUploadVisit "dir/a/b.jpg".toList).filePath
                  sampleConfig.folderPath)
                (failedUploadVisit "dir/a/b.jpg".toList).filePath,
              Event.logUploadError (failedUploadVisit "dir/a/b.jpg".toList).filePath
                ⟨"connection refused".toList⟩,
              Event.fatal ⟨"connection refused".toList⟩],
          exitCode := 1 } :=
  ⟨by decide, rfl, rfl, by decide, rfl,
    (upload_failure_stops_walk sampleConfig sampleDb
      [dirVisit "dir".toList, dirVisit "dir/a".toList]
      (failedUploadVisit "dir/a/b.jpg".toList)
      [fileVisit "dir/a/c.jpg".toList] "/uploads/b.jpg".toList "not json".toList
      ⟨"connection refused".toList⟩ (by decide) rfl rfl (by decide) (by decide) rfl).2.2⟩

/-- C3 (evaluation at the failing input): for root `dir` and file `dir/a/b.jpg` the
object name passed to the upload is `/a/b.jpg`, with its leading slash, and not
`a/b.jpg`, while the url written for the same file names the key `a/b.jpg`. -/
theorem upload_key_keeps_leading_slash :
    stringsTrimPrefix "dir/a/b.jpg".toList sampleConfig.folderPath = "/a/b.jpg".toList
    ∧ Event.putObject "media".toList "/a/b.jpg".toList "dir/a/b.jpg".toList ∈
      (walkFn sampleConfig sampleDb (fileVisit "dir/a/b.jpg".toList)).events
    ∧ Event.putObject "media".toList "a/b.jpg".toList "dir/a/b.jpg".toList ∉
      (walkFn sampleConfig sampleDb (fileVisit "dir/a/b.jpg".toList)).events
    ∧ Event.update "https://minio.example.com:9000/media/a/b.jpg".toList
        "https://minio.example.com:9000/media/a/b.jpg".toList "b.jpg".toList ∈
      (walkFn sampleConfig sampleDb (fileVisit "dir/a/b.jpg".toList)).events := by
  decide

/-- C4 (as stated, refuted): a variant url that already is an absolute URL of
another host is kept by the rewrite, so it does not start with
`https://{endpoint}/{bucket}/`. -/
theorem rewritten_urls_rooted_counterexample :
    ¬ specBucketRoot sampleConfig <+:
      (rewriteFormats sampleConfig "/a/b.jpg".toList sampleFormats).Large.URL := by
  decide

theorem rewrittenFrom_createUrl (cfg : Config) (source : GoString) :
    RewrittenFrom cfg source (createUrl cfg source) := by
  rcases createUrl_cases cfg source with ⟨h1, h2⟩ | ⟨h1, h2⟩
  · exact Or.inl ⟨h1, h2⟩
  · refine Or.inr ⟨h1, ?_⟩
    rw [h2]
    exact List.prefix_append _ _

/-- C4 (amended): after the rewrite step every URL field is `createUrl` of its
source value (the object key for the outer url, the parsed variant url for each
variant): a source that already starts with `http://` or `https://` is kept
unchanged, every other becomes a URL that starts with
`https://{endpoint}/{bucket}/`. -/
theorem rewritten_urls_rooted_or_kept (cfg : Config) (objectName : GoString) (d : FileFormats) :
    ((rewriteFormats cfg objectName d).URL = createUrl cfg objectName
      ∧ RewrittenFrom cfg objectName (rewriteFormats cfg objectName d).URL)
    ∧ ((rewriteFormats cfg objectName d).Large.URL = createUrl cfg d.Large.URL
      ∧ RewrittenFrom cfg d.Large.URL (rewriteFormats cfg objectName d).Large.URL)
    ∧ ((rewriteFormats cfg objectName d).Small.URL = createUrl cfg d.Small.URL
      ∧ RewrittenFrom cfg d.Small.URL (rewriteFormats cfg objectName d).Small.URL)
    ∧ ((rewriteFormats cfg objectName d).Medium.URL = createUrl cfg d.Medium.URL
      ∧ RewrittenFrom cfg d.Medium.URL (rewriteFormats cfg objectName d).Medium.URL)
    ∧ ((rewriteFormats cfg objectName d).Thumbnail.URL = createUrl cfg d.Thumbnail.URL
      ∧ RewrittenFrom cfg d.Thumbnail.URL (rewriteFormats cfg objectName d).Thumbnail.URL) :=
  ⟨⟨rfl, rewrittenFrom_createUrl cfg _⟩, ⟨rfl, rewrittenFrom_createUrl cfg _⟩,
    ⟨rfl, rewrittenFrom_createUrl cfg _⟩, ⟨rfl, rewrittenFrom_createUrl cfg _⟩,
    ⟨rfl, rewrittenFrom_createUrl cfg _⟩⟩

/-- C5 (as stated, refuted): two files with the same base name `b.jpg` in different
subdirectories make the run execute two update statements with the name `b.jpg`. -/
theorem update_at_most_once_counterexample :
    countUpdates "b.jpg".toList
      (main sampleConfig startupOk sampleDb
        [fileVisit "dir/a/b.jpg".toList, fileVisit "dir/z/b.jpg".toList]).events = 2 := by
  decide

/-- C5 (amended): over a whole run, the number of update statements executed with
a given name is at most the number of visited regular files with that base name. -/
theorem update_at_most_once_per_file (cfg : Config) (st : Startup) (db : DB)
    (visits : List Visit) (name : GoString) :
    countUpdates name (main cfg st db visits).events
      ≤ (visits.filter (fun v => v.isFile && decide (filepathBase v.filePath = name))).length :=
  countUpdates_main_le cfg st name visits db

/-- C6: for a file whose record was found with a non-empty url and whose upload
succeeded, exactly one update statement is executed: its name is the base name of
the file, its url is `createUrl` of the object name derived from the file path
(the record's prior url and prior `formats.url` do not occur in it), and its
formats text is the serialisation of the rewritten structure, whose own url
field is that same url. -/
theorem uploaded_file_single_update (cfg : Config) (db : DB) (v : Visit) (u f : GoString)
    (hErr : v.walkErr = none) (hDir : v.isDir = false)
    (hq : queryRowScan db v.queryFault (filepathBase v.filePath) = (u, f, none))
    (hu : u ≠ []) (hUp : v.uploadFault = none) :
    (walkFn cfg db v).events.filter Event.isUpdate =
      [Event.update (createUrl cfg (stringsTrimPrefix v.filePath cfg.folderPath))
        (cfg.jsonMarshal (rewriteFormats cfg (stringsTrimPrefix v.filePath cfg.folderPath)
          (cfg.jsonUnmarshal f).1)).1
        (filepathBase v.filePath)]
    ∧ (rewriteFormats cfg (stringsTrimPrefix v.filePath cfg.folderPath)
        (cfg.jsonUnmarshal f).1).URL
      = createUrl cfg (stringsTrimPrefix v.filePath cfg.folderPath) := by
  rw [walkFn_uploaded cfg db v u f hErr hDir hq hu hUp]
  refine ⟨?_, rfl⟩
  have hURL : (rewriteFormats cfg (stringsTrimPrefix v.filePath cfg.folderPath)
      (cfg.jsonUnmarshal f).1).URL
      = createUrl cfg (stringsTrimPrefix v.filePath cfg.folderPath) := rfl
  rw [hURL]
  cases (cfg.jsonUnmarshal f).2 <;>
    cases (cfg.jsonMarshal (rewriteFormats cfg (stringsTrimPrefix v.filePath cfg.folderPath)
      (cfg.jsonUnmarshal f).1)).2 <;>
    cases (updateExec db v.updateFault
      (createUrl cfg (stringsTrimPrefix v.filePath cfg.folderPath))
      (cfg.jsonMarshal (rewriteFormats cfg (stringsTrimPrefix v.filePath cfg.folderPath)
        (cfg.jsonUnmarshal f).1)).1 (filepathBase v.filePath)).2 <;>
    simp [logIf, Event.isUpdate, List.filter]

theorem uploaded_file_single_update_witness :
    (fileVisit "dir/a/b.jpg".toList).walkErr = none
    ∧ (fileVisit "dir/a/b.jpg".toList).isDir = false
    ∧ queryRowScan sampleDb (fileVisit "dir/a/b.jpg".toList).queryFault
        (filepathBase (fileVisit "dir/a/b.jpg".toList).filePath)
      = ("/uploads/b.jpg".toList, "not json".toList, none)
    ∧ (walkFn sampleConfig sampleDb (fileVisit "dir/a/b.jpg".toList)).events.filter
        Event.isUpdate =
      [Event.update
        (createUrl sampleConfig
          (stringsTrimPrefix (fileVisit "dir/a/b.jpg".toList).filePath sampleConfig.folderPath))
        (sampleConfig.jsonMarshal (rewriteFormats sampleConfig
          (stringsTrimPrefix (fileVisit "dir/a/b.jpg".toList).filePath sampleConfig.folderPath)
          (sampleConfig.jsonUnmarshal "not json".toList).1)).1
        (filepathBase (fileVisit "dir/a/b.jpg".toList).filePath)] :=
  ⟨rfl, rfl, by decide,
    (uploaded_file_single_update sampleConfig sampleDb (fileVisit "dir/a/b.jpg".toList)
      "/uploads/b.jpg".toList "not json".toList rfl rfl (by decide) (by decide) rfl).1⟩

/-- C7: when the lookup of a visited file did not succeed with a non-empty url
(no record, an empty url, or a query failure), the callback makes no upload call
and no update statement, leaves the table unchanged and returns no error, so the
walk goes on with the next file; unless the query failed with an error other
than `sql.ErrNoRows`, the only line written is the "does not exist" line, both
for a missing record and for an empty url. -/
theorem no_record_no_write (cfg : Config) (db : DB) (v : Visit) (rest : List Visit)
    (hErr : v.walkErr = none) (hDir : v.isDir = false)
    (h : (queryRowScan db v.queryFault (filepathBase v.filePath)).2.2 ≠ none
      ∨ (queryRowScan db v.queryFault (filepathBase v.filePath)).1 = []) :
    (walkFn cfg db v).db = db
    ∧ (walkFn cfg db v).err = none
    ∧ (∀ ev ∈ (walkFn cfg db v).events, ev.isWrite = false)
    ∧ walk cfg db (v :: rest) =
      { db := (walk cfg db rest).db,
        events := (walkFn cfg db v).events ++ (walk cfg db rest).events,
        err := (walk cfg db rest).err }
    ∧ (((queryRowScan db v.queryFault (filepathBase v.filePath)).2.2 = none
        ∨ (queryRowScan db v.queryFault (filepathBase v.filePath)).2.2
          = some SqlError.errNoRows) →
      (walkFn cfg db v).events =
        [Event.query (filepathBase v.filePath),
          Event.logDoesNotExist (filepathBase v.filePath)]) := by
  have key : (walkFn cfg db v =
        { db := db,
          events := [Event.query (filepathBase v.filePath),
            Event.logDoesNotExist (filepathBase v.filePath)],
          err := none }
        ∧ ((queryRowScan db v.queryFault (filepathBase v.filePath)).2.2 = none
          ∨ (queryRowScan db v.queryFault (filepathBase v.filePath)).2.2
            = some SqlError.errNoRows))
      ∨ (∃ e, walkFn cfg db v =
        { db := db,
          events := [Event.query (filepathBase v.filePath),
            Event.logQueryError (SqlError.other e)],
          err := none }
        ∧ (queryRowScan db v.queryFault (filepathBase v.filePath)).2.2
          = some (SqlError.other e)) := by
    have hno := queryRowScan_errNoRows db v.queryFault (filepathBase v.filePath)
    rcases hq : queryRowScan db v.queryFault (filepathBase v.filePath) with ⟨u, f, r⟩
    rw [hq] at h hno
    cases r with
    | some r =>
      cases r with
      | other e =>
        exact Or.inr ⟨e, walkFn_queryFailed cfg db v u f e hErr hDir hq, rfl⟩
      | errNoRows =>
        have hu : u = [] := hno rfl
        subst hu
        exact Or.inl ⟨walkFn_notExist cfg db v f _ (Or.inr rfl) hErr hDir hq, Or.inr rfl⟩
    | none =>
      have hu : u = [] := by
        rcases h with h | h
        · exact absurd rfl h
        · exact h
      subst hu
      exact Or.inl ⟨walkFn_notExist cfg db v f _ (Or.inl rfl) hErr hDir hq, Or.inl rfl⟩
  have hdb : (walkFn cfg db v).db = db := by
    rcases key with ⟨hk, _⟩ | ⟨e, hk, _⟩ <;> rw [hk]
  have herr : (walkFn cfg db v).err = none := by
    rcases key with ⟨hk, _⟩ | ⟨e, hk, _⟩ <;> rw [hk]
  refine ⟨hdb, herr, ?_, ?_, ?_⟩
  · rcases key with ⟨hk, _⟩ | ⟨e, hk, _⟩ <;> rw [hk] <;> simp [Event.isWrite]
  · rw [walk_cons_continue cfg db v rest herr, hdb]
  · intro hr
    rcases key with ⟨hk, _⟩ | ⟨e, hk, he⟩
    · rw [hk]
    · rw [he] at hr
      rcases hr with hr | hr <;> cases hr

theorem no_record_no_write_witness :
    (fileVisit "dir/a/c.jpg".toList).walkErr = none
    ∧ (fileVisit "dir/a/c.jpg".toList).isDir = false
    ∧ (queryRowScan sampleDb (fileVisit "dir/a/c.jpg".toList).queryFault
        (filepathBase (fileVisit "dir/a/c.jpg".toList).filePath)).1 = []
    ∧ (walkFn sampleConfig sampleDb (fileVisit "dir/a/c.jpg".toList)).db = sampleDb
    ∧ (walkFn sampleConfig sampleDb (fileVisit "dir/a/c.jpg".toList)).err = none :=
  ⟨rfl, rfl, by decide,
    (no_record_no_write sampleConfig sampleDb (fileVisit "dir/a/c.jpg".toList) [] rfl rfl
      (Or.inr (by decide))).1,
    (no_record_no_write sampleConfig sampleDb (fileVisit "dir/a/c.jpg".toList) [] rfl rfl
      (Or.inr (by decide))).2.1⟩

/-- C8: for a path that starts with `http://` or `https://`, `createUrl` returns
the path itself, so the rewrite leaves unchanged a variant url that already is
such an absolute URL. -/
theorem createUrl_absolute_identity (cfg : Config) (path : GoString)
    (h : "http://".toList <+: path ∨ "https://".toList <+: path) :
    createUrl cfg path = path
    ∧ ∀ (objectName : GoString) (d : FileFormats),
      (d.Large.URL = path → (rewriteFormats cfg objectName d).Large.URL = path)
      ∧ (d.Small.URL = path → (rewriteFormats cfg objectName d).Small.URL = path)
      ∧ (d.Medium.URL = path → (rewriteFormats cfg objectName d).Medium.URL = path)
      ∧ (d.Thumbnail.URL = path → (rewriteFormats cfg objectName d).Thumbnail.URL = path) := by
  have hc := createUrl_of_absolute cfg path h
  refine ⟨hc, fun objectName d => ⟨?_, ?_, ?_, ?_⟩⟩ <;>
    · intro hd
      show createUrl cfg _ = path
      rw [hd, hc]

theorem createUrl_absolute_identity_witness :
    ("http://".toList <+: "http://cdn.example.org/large_b.jpg".toList
      ∨ "https://".toList <+: "http://cdn.example.org/large_b.jpg".toList)
    ∧ createUrl sampleConfig "http://cdn.example.org/large_b.jpg".toList
      = "http://cdn.example.org/large_b.jpg".toList :=
  ⟨by decide,
    (createUrl_absolute_identity sampleConfig "http://cdn.example.org/large_b.jpg".toList
      (by decide)).1⟩

/-- C9: for a file whose record was found with a non-empty url and whose upload
succeeded, whatever the formats text and whether or not it parses, the callback
returns no error and the update statement is executed with the serialisation of
the rewritten structure. That structure is the one the parser left, with its
outer url set to `createUrl` of the object name and each variant url replaced by
`createUrl` of itself (the bucket root when the parser left the zero value); a
parse error is only logged; wherever the file stands in the traversal, the walk
goes on with the files that remain and the exit status is that of the remaining
files. -/
theorem parse_failure_still_updates (cfg : Config) (db : DB) (v : Visit) (rest : List Visit)
    (u f : GoString)
    (hErr : v.walkErr = none) (hDir : v.isDir = false)
    (hq : queryRowScan db v.queryFault (filepathBase v.filePath) = (u, f, none))
    (hu : u ≠ []) (hUp : v.uploadFault = none) :
    (walkFn cfg db v).err = none
    ∧ Event.update
        (rewriteFormats cfg (stringsTrimPrefix v.filePath cfg.folderPath)
          (cfg.jsonUnmarshal f).1).URL
        (cfg.jsonMarshal (rewriteFormats cfg (stringsTrimPrefix v.filePath cfg.folderPath)
          (cfg.jsonUnmarshal f).1)).1
        (filepathBase v.filePath) ∈ (walkFn cfg db v).events
    ∧ (walkFn cfg db v).db =
      (updateExec db v.updateFault
        (rewriteFormats cfg (stringsTrimPrefix v.filePath cfg.folderPath)
          (cfg.jsonUnmarshal f).1).URL
        (cfg.jsonMarshal (rewriteFormats cfg (stringsTrimPrefix v.filePath cfg.folderPath)
          (cfg.jsonUnmarshal f).1)).1
        (filepathBase v.filePath)).1
    ∧ (∀ e, (cfg.jsonUnmarshal f).2 = some e →
        Event.logParseError e ∈ (walkFn cfg db v).events)
    ∧ walk cfg db (v :: rest) =
      { db := (walk cfg (walkFn cfg db v).db rest).db,
        events := (walkFn cfg db v).events ++ (walk cfg (walkFn cfg db v).db rest).events,
        err := (walk cfg (walkFn cfg db v).db rest).err }
    ∧ rewriteFormats cfg (stringsTrimPrefix v.filePath cfg.folderPath) (cfg.jsonUnmarshal f).1 =
      { URL := createUrl cfg (stringsTrimPrefix v.filePath cfg.folderPath),
        Large := { (cfg.jsonUnmarshal f).1.Large with
          URL := createUrl cfg (cfg.jsonUnmarshal f).1.Large.URL },
        Small := { (cfg.jsonUnmarshal f).1.Small with
          URL := createUrl cfg (cfg.jsonUnmarshal f).1.Small.URL },
        Medium := { (cfg.jsonUnmarshal f).1.Medium with
          URL := createUrl cfg (cfg.jsonUnmarshal f).1.Medium.URL },
        Thumbnail := { (cfg.jsonUnmarshal f).1.Thumbnail with
          URL := createUrl cfg (cfg.jsonUnmarshal f).1.Thumbnail.URL } }
    ∧ ((cfg.jsonUnmarshal f).1 = FileFormats.zero →
      rewriteFormats cfg (stringsTrimPrefix v.filePath cfg.folderPath) (cfg.jsonUnmarshal f).1 =
        { URL := createUrl cfg (stringsTrimPrefix v.filePath cfg.folderPath),
          Large := { Format.zero with URL := specBucketRoot cfg },
          Small := { Format.zero with URL := specBucketRoot cfg },
          Medium := { Format.zero with URL := specBucketRoot cfg },
          Thumbnail := { Format.zero with URL := specBucketRoot cfg } })
    ∧ (∀ (db0 : DB) (pre : List Visit),
      (walk cfg db0 pre).err = none → (walk cfg db0 pre).db = db →
        walk cfg db0 (pre ++ v :: rest) =
          { db := (walk cfg (walkFn cfg db v).db rest).db,
            events := (walk cfg db0 pre).events ++
              ((walkFn cfg db v).events ++ (walk cfg (walkFn cfg db v).db rest).events),
            err := (walk cfg (walkFn cfg db v).db rest).err }
        ∧ (main cfg startupOk db0 (pre ++ v :: rest)).exitCode
          = (main cfg startupOk (walkFn cfg db v).db rest).exitCode) := by
  have hw := walkFn_uploaded cfg db v u f hErr hDir hq hu hUp
  have herr : (walkFn cfg db v).err = none := by rw [hw]
  have hcont := walk_cons_continue cfg db v rest herr
  refine ⟨herr, ?_, ?_, ?_, hcont, rfl, ?_, ?_⟩
  · rw [hw]
    simp
  · rw [hw]
  · intro e he
    rw [hw, he]
    simp [logIf]
  · intro hz
    rw [hz]
    simp [rewriteFormats, FileFormats.zero, Format.zero, createUrl_nil]
  · intro db0 pre hpre hdb
    have happ : walk cfg db0 (pre ++ v :: rest) =
        { db := (walk cfg (walkFn cfg db v).db rest).db,
          events := (walk cfg db0 pre).events ++
            ((walkFn cfg db v).events ++ (walk cfg (walkFn cfg db v).db rest).events),
          err := (walk cfg (walkFn cfg db v).db rest).err } := by
      rw [walk_append cfg pre (v :: rest) db0 hpre, hdb, hcont]
    refine ⟨happ, ?_⟩
    apply main_exitCode_congr
    rw [happ]

theorem parse_failure_still_updates_witness :
    (sampleConfig.jsonUnmarshal "not json".toList).2 ≠ none
    ∧ queryRowScan sampleDb (fileVisit "dir/a/b.jpg".toList).queryFault
        (filepathBase (fileVisit "dir/a/b.jpg".toList).filePath)
      = ("/uploads/b.jpg".toList, "not json".toList, none)
    ∧ (walkFn sampleConfig sampleDb (fileVisit "dir/a/b.jpg".toList)).err = none
    ∧ Event.update
        (rewriteFormats sampleConfig
          (stringsTrimPrefix (fileVisit "dir/a/b.jpg".toList).filePath sampleConfig.folderPath)
          (sampleConfig.jsonUnmarshal "not json".toList).1).URL
        (sampleConfig.jsonMarshal (rewriteFormats sampleConfig
          (stringsTrimPrefix (fileVisit "dir/a/b.jpg".toList).filePath sampleConfig.folderPath)
          (sampleConfig.jsonUnmarshal "not json".toList).1)).1
        (filepathBase (fileVisit "dir/a/b.jpg".toList).filePath)
      ∈ (walkFn sampleConfig sampleDb (fileVisit "dir/a/b.jpg".toList)).events
    ∧ (rewriteFormats sampleConfig
        (stringsTrimPrefix (fileVisit "dir/a/b.jpg".toList).filePath sampleConfig.folderPath)
        (sampleConfig.jsonUnmarshal "not json".toList).1).URL
      = "https://minio.example.com:9000/media/a/b.jpg".toList
    ∧ (rewriteFormats sampleConfig
        (stringsTrimPrefix (fileVisit "dir/a/b.jpg".toList).filePath sampleConfig.folderPath)
        (sampleConfig.jsonUnmarshal "not json".toList).1).Thumbnail.URL
      = "https://minio.example.com:9000/media/".toList :=
  ⟨by decide, by decide,
    (parse_failure_still_updates sampleConfig sampleDb (fileVisit "dir/a/b.jpg".toList) []
      "/uploads/b.jpg".toList "not json".toList rfl rfl (by decide) (by decide) rfl).1,
    (parse_failure_still_updates sampleConfig sampleDb (fileVisit "dir/a/b.jpg".toList) []
      "/uploads/b.jpg".toList "not json".toList rfl rfl (by decide) (by decide) rfl).2.1,
    by decide, by decide⟩

/-- C10: `createUrl` is idempotent, and so is the rewrite step for a fixed object
name: a variant url rewritten by an earlier run with the same configuration is
not prefixed a second time. -/
theorem createUrl_idempotent (cfg : Config) (path : GoString) :
    createUrl cfg (createUrl cfg path) = createUrl cfg path
    ∧ ∀ (objectName : GoString) (d : FileFormats),
      rewriteFormats cfg objectName (rewriteFormats cfg objectName d)
        = rewriteFormats cfg objectName d := by
  refine ⟨createUrl_idem cfg path, fun objectName d => ?_⟩
  simp [rewriteFormats, createUrl_idem]

end StrapiScripts
